import Mathlib

/-!
Verification of the Tfm_AI game-automation bot against its design
specification.  The definitions below shallowly embed the Python source:

* `src/ai/advanced_browser_gemini.py` — response validity filter
  (`_is_valid_response`), response extraction (`_wait_for_response`,
  `_extract_response_alternative`), the message-exchange protocol
  (`_send_message`, `_count_responses`, `_wait_for_new_response`) and the
  personality registry (`create_new_ai`, `_initialize_personality`,
  `list_personalities`).
* `src/core/game_controller.py` — the command grammar and dispatcher
  (`_setup_command_patterns`, `_process_command`), identity tracking
  (`_track_login`, `_is_command_to_bot`, `_on_room_message`,
  `_on_whisper_message`), continuous movement (`_execute_walk`) and the
  outbound message splitter (`_split_message_smart`).

Strings are modelled as `List Char`; Python truthiness, slicing,
`str.split()` and `str.strip()` are reproduced explicitly.  Browser,
window and network side effects are modelled as explicit environment
records holding the outcome of each external call.
-/

namespace Tfm

/-! ### Python string primitives -/

/-- Whitespace characters recognised by Python `str.split()` / `str.strip()`. -/
def isWsChar (c : Char) : Bool :=
  c == ' ' || c == '\t' || c == '\n' || c == '\r' || c == '\x0b' || c == '\x0c'

/-- Python `str.strip()`: drop leading and trailing whitespace. -/
def pyStrip (s : List Char) : List Char :=
  ((s.dropWhile isWsChar).reverse.dropWhile isWsChar).reverse

/-- Helper for `pyWords`; the current word is accumulated in reverse. -/
def wordsAux : List Char → List Char → List (List Char)
  | [], acc => if acc.isEmpty then [] else [acc.reverse]
  | c :: rest, acc =>
    if isWsChar c then
      if acc.isEmpty then wordsAux rest [] else acc.reverse :: wordsAux rest []
    else
      wordsAux rest (c :: acc)

/-- Python `str.split()` with no argument: split on whitespace runs,
dropping empty pieces. -/
def pyWords (s : List Char) : List (List Char) := wordsAux s []

/-- Python slicing `s[:n]`, including negative `n`. -/
def pySliceTo (s : List Char) (n : Int) : List Char :=
  if 0 ≤ n then s.take n.toNat else s.take (s.length - (-n).toNat)

/-- Python slicing `s[n:]`, including negative `n`. -/
def pySliceFrom (s : List Char) (n : Int) : List Char :=
  if 0 ≤ n then s.drop n.toNat else s.drop (s.length - (-n).toNat)

/-- Python `str.lower()` restricted to ASCII case folding (every pattern it
is compared against in the source is ASCII). -/
def toLowerStr (s : List Char) : List Char := s.map Char.toLower

/-- Boolean prefix test on character lists. -/
def isPrefixB : List Char → List Char → Bool
  | [], _ => true
  | _ :: _, [] => false
  | a :: xs, b :: ys => a == b && isPrefixB xs ys

/-- Python substring containment, `needle in hay`. -/
def containsSub (needle : List Char) : List Char → Bool
  | [] => isPrefixB needle []
  | c :: rest => isPrefixB needle (c :: rest) || containsSub needle rest

/-- Python `s[-n:]` for a list: the last `n` elements. -/
def lastN {α : Type} (n : Nat) (l : List α) : List α := l.drop (l.length - n)

/-! ### Response validity filter

Embeds `AdvancedBrowserGemini._is_valid_response`
(`src/ai/advanced_browser_gemini.py`, lines 885-920). -/

/-- The denylist `invalid_patterns` of `_is_valid_response`, in source order. -/
def invalidPatterns : List (List Char) :=
  [ "important system".data
  , "you must respond".data
  , "ask gemini".data
  , "gemini can make mistakes".data
  , "the user data directory".data
  , "chrome://".data
  , "send a message".data
  , "enter a prompt".data
  , "choose a".data
  , "based on".data
  , "copy code".data
  , "show more".data
  , "continue".data
  , "thinking".data
  , "loading".data
  , "please wait".data
  ]

/-- The alphabetic characters counted by `_is_valid_response`: the regex
class `[a-zA-Z؀-ۿݐ-ݿ]` (Latin plus two Arabic blocks). -/
def isLetterChar (c : Char) : Bool :=
  ('a' ≤ c && c ≤ 'z') || ('A' ≤ c && c ≤ 'Z') ||
  (0x0600 ≤ c.toNat && c.toNat ≤ 0x06FF) ||
  (0x0750 ≤ c.toNat && c.toNat ≤ 0x077F)

/-- Number of alphabetic (Latin or Arabic-script) characters in a text. -/
def letterCount (s : List Char) : Nat := (s.filter isLetterChar).length

/-- `AdvancedBrowserGemini._is_valid_response(text)`; the first test is
Python's `if not text or len(text) < 3`. -/
def isValidResponse (text : List Char) : Bool :=
  if text = [] ∨ text.length < 3 then false
  else if invalidPatterns.any (fun p => containsSub p (toLowerStr text)) then false
  else if letterCount text < 3 then false
  else true

/-! ### Response extraction

Embeds `AdvancedBrowserGemini._wait_for_response` (lines 802-883) and
`AdvancedBrowserGemini._extract_response_alternative` (lines 922-997).
The browser page is modelled by the texts each query step would return.
The code retries its primary selector pass up to ten times on the same
page; on an unchanging page every pass is identical, so one pass of each
strategy is modelled, in the source order of fallbacks. -/

/-- Texts available to each extraction strategy.

* `selectorTexts`: for each of the ranked CSS selectors in `_wait_for_response`,
  the `element.text` values the selector yields, in DOM order.
* `lastParagraphs`: the `p.text` values of all page paragraphs, in DOM order
  (alternative method 1).
* `sourceMarkdownTexts`: the tag-stripped, unescaped texts of the markdown
  `div` matches found in the raw page source, in order (alternative method 2).
* `jsTexts`: the `textContent.trim()` values collected by the scripted DOM
  search, in order (alternative method 3). -/
structure PageState where
  selectorTexts : List (List (List Char))
  lastParagraphs : List (List Char)
  sourceMarkdownTexts : List (List Char)
  jsTexts : List (List Char)

/-- One selector of the primary pass: inspect the last three elements from
most recent to least recent and return the first stripped text passing the
validity filter (`_wait_for_response`, lines 842-870). -/
def firstValidIn (elems : List (List Char)) : Option (List Char) :=
  (lastN 3 elems).reverse.findSome? fun t =>
    let s := pyStrip t
    if isValidResponse s then some s else none

/-- Primary extraction: first selector (in ranked order) yielding a valid
candidate wins. -/
def extractPrimary (page : PageState) : Option (List Char) :=
  page.selectorTexts.findSome? firstValidIn

/-- Alternative method 1 of `_extract_response_alternative`: the most recent
valid paragraph among the last ten page paragraphs. -/
def extractParagraphs (page : PageState) : Option (List Char) :=
  (lastN 10 page.lastParagraphs).reverse.findSome? fun t =>
    let s := pyStrip t
    if isValidResponse s then some s else none

/-- Alternative method 2: the most recent valid cleaned markdown text among
the last three regex matches on the raw page source. -/
def extractSource (page : PageState) : Option (List Char) :=
  (lastN 3 page.sourceMarkdownTexts).reverse.findSome? fun t =>
    let s := pyStrip t
    if isValidResponse s then some s else none

/-- The pre-filter applied inside the extraction script of alternative
method 3: length above ten, and neither "system" nor "gemini can make" in
the lowered text. -/
def jsPreFilter (s : List Char) : Bool :=
  10 < s.length &&
  !(containsSub "system".data (toLowerStr s)) &&
  !(containsSub "gemini can make".data (toLowerStr s))

/-- Alternative method 3: the script returns the last collected text passing
its own pre-filter; the caller then applies the validity filter. -/
def extractJs (page : PageState) : Option (List Char) :=
  match (page.jsTexts.map pyStrip |>.filter jsPreFilter).getLast? with
  | some t => if isValidResponse t then some t else none
  | none => none

/-- `AdvancedBrowserGemini._wait_for_response`: the primary selector pass,
falling back to `_extract_response_alternative` (paragraph scan, page-source
recovery, scripted search), else failure. -/
def waitForResponse (page : PageState) : Option (List Char) :=
  match extractPrimary page with
  | some r => some r
  | none =>
    match extractParagraphs page with
    | some r => some r
    | none =>
      match extractSource page with
      | some r => some r
      | none => extractJs page

/-! ### Message-exchange protocol

Embeds `AdvancedBrowserGemini._send_message` (lines 422-459),
`_count_responses` (lines 461-485) and `_wait_for_new_response`
(lines 487-510). -/

/-- `AdvancedBrowserGemini._count_responses`: the maximum element count any
count selector reports (selectors that raise are skipped). -/
def countResponses (counts : List Nat) : Nat := counts.foldl Nat.max 0

/-- Whether the polling loop of `_wait_for_new_response` ever observes a
count strictly above the baseline within its wall-clock budget;
`polled` lists the detector value at each one-second poll. -/
def pollForIncrease (polled : List Nat) (initial : Nat) : Bool :=
  polled.any fun c => initial < c

/-- `AdvancedBrowserGemini._wait_for_new_response(initial_count)`: poll for a
count above the baseline; if detected, sleep a settle delay and extract —
and if the budget expires undetected, log a warning and extract anyway
(lines 495-510: the `while`/`else` falls through to `_wait_for_response` in
both cases). -/
def waitForNewResponse (polled : List Nat) (initial : Nat) (page : PageState) :
    Option (List Char) :=
  if pollForIncrease polled initial then
    waitForResponse page
  else
    waitForResponse page

/-- Outcome of each external step of one `_send_message` exchange. -/
structure ExchangeEnv where
  /-- An exception escaped one of the steps inside the `try` of
  `_send_message`; the handler returns failure. -/
  stepThrew : Bool
  /-- Whether `_find_input_element` produced an input element. -/
  inputFound : Bool
  /-- Counts reported by the count selectors at the baseline snapshot. -/
  baselineCounts : List Nat
  /-- Detector values at each poll of the wait loop. -/
  polledCounts : List Nat
  /-- Page contents seen by the extraction strategies. -/
  page : PageState

/-- `AdvancedBrowserGemini._send_message(message)`: snapshot the baseline
count, find the input element (fail otherwise), enter and submit the
message, then wait-and-extract; any exception resolves to failure. -/
def sendMessageModel (env : ExchangeEnv) : Option (List Char) :=
  if env.stepThrew then none
  else if !env.inputFound then none
  else waitForNewResponse env.polledCounts (countResponses env.baselineCounts) env.page

/-! ### Personality registry

Embeds `AIPersonality` (lines 28-38), `AdvancedBrowserGemini.create_new_ai`
(lines 204-299), `_initialize_personality` (lines 301-366) and
`list_personalities` (lines 999-1010).  The flag parser of `create_new_ai`
is abstracted into its outputs (language, topic, optional explicit name,
custom instructions); the default-name synthesis and everything after
parsing is embedded. -/

/-- `AIPersonality.__init__` state (the opaque `tab_handle` is omitted). -/
structure AIPersonality where
  name : List Char
  language : List Char
  topic : List Char
  customInstructions : List Char
  isInitialized : Bool
  promptSent : Bool
deriving DecidableEq

/-- `AdvancedBrowserGemini` registry state: `is_initialized`,
`personalities` (an insertion-ordered dict) and `current_personality`. -/
structure GeminiState where
  isInitialized : Bool
  personalities : List (List Char × AIPersonality)
  currentPersonality : Option AIPersonality
deriving DecidableEq

/-- Python dict lookup `d[k]` on the registry: the value stored under the
first matching key. -/
def dictGet (d : List (List Char × AIPersonality)) (k : List Char) :
    Option AIPersonality :=
  match d with
  | [] => none
  | kv :: rest => if kv.1 == k then some kv.2 else dictGet rest k

/-- Python dict assignment `d[k] = v`: overwrite in place when the key
exists (keeping its position), append otherwise. -/
def dictSet (d : List (List Char × AIPersonality)) (k : List Char)
    (v : AIPersonality) : List (List Char × AIPersonality) :=
  if d.any (fun kv => kv.1 == k) then
    d.map fun kv => if kv.1 == k then (k, v) else kv
  else
    d ++ [(k, v)]

/-- The synthesized default name `f"{language}_{topic}_{int(time.time() % 10000)}"`
(line 276); `epochMod` is the epoch-second modulus. -/
def defaultAiName (language topic : List Char) (epochMod : Nat) : List Char :=
  language ++ '_' :: topic ++ '_' :: Nat.toDigits 10 epochMod

/-- Name resolution of `create_new_ai`: an explicit non-empty `--name` value
wins, otherwise the default name is synthesized (`if not name:` is Python
truthiness, so an empty explicit name is also replaced). -/
def resolveName (nameOpt : Option (List Char)) (language topic : List Char)
    (epochMod : Nat) : List Char :=
  match nameOpt with
  | some n => if n.isEmpty then defaultAiName language topic epochMod else n
  | none => defaultAiName language topic epochMod

/-- Outcomes of the external steps of one `create_new_ai` call. -/
structure CreateEnv where
  /-- Whether `initialize()` would succeed if the browser is not yet open. -/
  browserInitOk : Bool
  /-- Whether opening the new tab and navigating raise no exception
  (a raise is caught by `_initialize_personality` and yields failure). -/
  tabOpenOk : Bool
  /-- Whether the sign-in detection of `_initialize_personality` fires. -/
  signInDetected : Bool
  /-- The system-prompt exchange of the initialization handshake. -/
  handshake : ExchangeEnv

/-- Result of `create_new_ai` (its user-facing strings, as a tag). -/
inductive CreateResult where
  | created (name : List Char)
  | browserStartFailed
  | initFailed
deriving DecidableEq

/-- The personality object as registered: both `is_initialized` and
`prompt_sent` carry the handshake outcome. -/
def mkPersonality (name language topic custom : List Char) (init : Bool) :
    AIPersonality :=
  ⟨name, language, topic, custom, init, init⟩

/-- `AdvancedBrowserGemini._initialize_personality(personality)`: open a
tab, navigate, bail out on a detected sign-in page, send the system prompt
through `_send_message` and succeed exactly when a response came back; any
exception is caught and yields failure. -/
def initializePersonality (env : CreateEnv) : Bool :=
  if !env.tabOpenOk then false
  else if env.signInDetected then false
  else (sendMessageModel env.handshake).isSome

/-- `AdvancedBrowserGemini.create_new_ai` after argument parsing: resolve
the name, make sure the browser is up, run the initialization handshake,
and only on success store the personality in the registry and make it
current. -/
def createNewAi (st : GeminiState) (env : CreateEnv)
    (nameOpt : Option (List Char)) (language topic custom : List Char)
    (epochMod : Nat) : GeminiState × CreateResult :=
  let name := resolveName nameOpt language topic epochMod
  if !st.isInitialized && !env.browserInitOk then
    (st, .browserStartFailed)
  else
    let st1 := { st with isInitialized := true }
    if initializePersonality env then
      let p := mkPersonality name language topic custom true
      ({ st1 with
          personalities := dictSet st1.personalities name p
          currentPersonality := some p },
       .created name)
    else
      (st1, .initFailed)

/-- `AdvancedBrowserGemini.list_personalities`: the report lines, one per
registry entry in insertion order — name, language, topic, initialized
flag and whether the entry is current. -/
def listPersonalities (st : GeminiState) :
    List (List Char × List Char × List Char × Bool × Bool) :=
  st.personalities.map fun kv =>
    (kv.1, kv.2.language, kv.2.topic, kv.2.isInitialized,
     st.currentPersonality == some kv.2)

/-! ### Command grammar

Embeds the regex patterns of
`BackgroundGameController._setup_command_patterns`
(`src/core/game_controller.py`, lines 95-123).  Each pattern is used with
`re.match` (anchored at the start, a prefix match suffices) and
`re.IGNORECASE`.  Patterns are compiled to backtracking prefix matchers in
continuation-passing style; for the Boolean question "does the pattern
match" this coincides with Python's backtracking search. -/

/-- A prefix matcher: given the input and a continuation receiving the
unconsumed rest, decide whether some split lets both succeed. -/
abbrev Matcher := List Char → (List Char → Bool) → Bool

/-- Match the empty pattern. -/
def mEps : Matcher := fun s k => k s

/-- Match one character of a class. -/
def mCls (p : Char → Bool) : Matcher := fun s k =>
  match s with
  | [] => false
  | c :: rest => p c && k rest

/-- Sequential composition of two patterns. -/
def mSeq (a b : Matcher) : Matcher := fun s k => a s fun rest => b rest k

/-- Alternation of two patterns. -/
def mAlt (a b : Matcher) : Matcher := fun s k => a s k || b s k

/-- Kleene star over a character class (each iteration consumes one
character, so recursion on the input terminates). -/
def starClsAux (p : Char → Bool) : List Char → (List Char → Bool) → Bool
  | [], k => k []
  | c :: rest, k => k (c :: rest) || (p c && starClsAux p rest k)

/-- `p*` for a character class. -/
def mStarCls (p : Char → Bool) : Matcher := fun s k => starClsAux p s k

/-- `p+` for a character class. -/
def mPlusCls (p : Char → Bool) : Matcher := mSeq (mCls p) (mStarCls p)

/-- An optional pattern. -/
def mOpt (a : Matcher) : Matcher := fun s k => a s k || k s

/-- A case-insensitive literal (the patterns are compiled with
`re.IGNORECASE`). -/
def mStr (cs : List Char) : Matcher :=
  cs.foldr (fun c m => mSeq (mCls fun x => x.toLower == c.toLower) m) mEps

/-- Bounded iteration for `+` over a composite pattern: up to `n + 1`
repetitions. -/
def mPlusAux (a : Matcher) : Nat → Matcher
  | 0 => a
  | n + 1 => fun s k => a s fun rest => k rest || mPlusAux a n rest k

/-- `a+` for a composite pattern that consumes at least one character per
repetition: `s.length` surplus repetitions always suffice. -/
def mPlus (a : Matcher) : Matcher := fun s k => mPlusAux a s.length s k

/-- Regex `\s`. -/
def wsP (c : Char) : Bool := isWsChar c

/-- Regex `.` (anything but a newline; `re.DOTALL` is not used). -/
def dotP (c : Char) : Bool := c != '\n'

/-- Regex `\d`. -/
def digitP (c : Char) : Bool := c.isDigit

/-- Regex `\w` (ASCII fragment; the names fed to `$switchai` are ASCII). -/
def wordP (c : Char) : Bool := c.isAlpha || c.isDigit || c == '_'

/-- Run a pattern in `re.match` fashion: it must match a prefix. -/
def reTop (m : Matcher) (s : List Char) : Bool := m s fun _ => true

/-- The literal `\$`. -/
def dollarM : Matcher := mCls fun c => c == '$'

/-- `\s+`. -/
def mWs1 : Matcher := mPlusCls wsP

/-- `(.+)`. -/
def mDotPlus : Matcher := mPlusCls dotP

/-- `(left|right|up|down)`. -/
def dirAlt : Matcher :=
  mAlt (mStr "left".data) (mAlt (mStr "right".data)
    (mAlt (mStr "up".data) (mStr "down".data)))

/-- `self.newai_pattern`: `\$newai\s+(.+)`. -/
def newaiMatch (s : List Char) : Bool :=
  reTop (mSeq dollarM (mSeq (mStr "newai".data) (mSeq mWs1 mDotPlus))) s

/-- `self.switchai_pattern`: `\$switchai\s+(\w+)`. -/
def switchaiMatch (s : List Char) : Bool :=
  reTop (mSeq dollarM (mSeq (mStr "switchai".data) (mSeq mWs1 (mPlusCls wordP)))) s

/-- `self.listai_pattern`: `\$listai`. -/
def listaiMatch (s : List Char) : Bool :=
  reTop (mSeq dollarM (mStr "listai".data)) s

/-- `self.ai_pattern`: `\$(?:ai|ask)\s+(.+)`. -/
def aiMatch (s : List Char) : Bool :=
  reTop (mSeq dollarM (mSeq (mAlt (mStr "ai".data) (mStr "ask".data))
    (mSeq mWs1 mDotPlus))) s

/-- `self.move_pattern`: `\$move\s+(left|right|up|down)\s*(\d+)?`. -/
def moveMatch (s : List Char) : Bool :=
  reTop (mSeq dollarM (mSeq (mStr "move".data) (mSeq mWs1 (mSeq dirAlt
    (mSeq (mStarCls wsP) (mOpt (mPlusCls digitP))))))) s

/-- `self.walk_pattern`: `\$walk\s+(left|right)`. -/
def walkMatch (s : List Char) : Bool :=
  reTop (mSeq dollarM (mSeq (mStr "walk".data) (mSeq mWs1
    (mAlt (mStr "left".data) (mStr "right".data))))) s

/-- `self.spam_pattern`: `\$spam\s+(jump|left|right|up|down)\s+(\d+)`. -/
def spamMatch (s : List Char) : Bool :=
  reTop (mSeq dollarM (mSeq (mStr "spam".data) (mSeq mWs1
    (mSeq (mAlt (mStr "jump".data) dirAlt) (mSeq mWs1 (mPlusCls digitP)))))) s

/-- One repetition unit of the combo pattern:
`(?:left|right|up|down|jump|space)\s*`. -/
def comboUnit : Matcher :=
  mSeq (mAlt dirAlt (mAlt (mStr "jump".data) (mStr "space".data))) (mStarCls wsP)

/-- `self.combo_pattern`: `\$combo\s+((?:left|right|up|down|jump|space)\s*)+`. -/
def comboMatch (s : List Char) : Bool :=
  reTop (mSeq dollarM (mSeq (mStr "combo".data) (mSeq mWs1 (mPlus comboUnit)))) s

/-- `self.chat_pattern`: `\$chat\s+(.+)`. -/
def chatMatch (s : List Char) : Bool :=
  reTop (mSeq dollarM (mSeq (mStr "chat".data) (mSeq mWs1 mDotPlus))) s

/-- `self.window_select_pattern`: `\$select\s+(.+)`. -/
def selectMatch (s : List Char) : Bool :=
  reTop (mSeq dollarM (mSeq (mStr "select".data) (mSeq mWs1 mDotPlus))) s

/-- One entry of `self.command_patterns`: the pattern `\$<keyword>`. -/
def simpleMatch (kw : List Char) (s : List Char) : Bool :=
  reTop (mSeq dollarM (mStr kw)) s

/-- The command variant `_process_command` dispatches to.  `simple n`
carries the key of the `command_patterns` dict entry. -/
inductive Command where
  | createPersonality
  | switchPersonality
  | listPersonalities
  | ask
  | move
  | walk
  | spam
  | combo
  | chat
  | windowSelect
  | simple (n : String)
  | unrecognized
deriving DecidableEq

/-- `BackgroundGameController._process_command` (lines 342-442) as a pure
routing function: try each pattern in the source's order, first match
wins, else `Unrecognized`.  The tail enumerates `self.command_patterns` in
its insertion order (lines 112-123). -/
def parseCommand (msg : List Char) : Command :=
  if newaiMatch msg then .createPersonality
  else if switchaiMatch msg then .switchPersonality
  else if listaiMatch msg then .listPersonalities
  else if aiMatch msg then .ask
  else if moveMatch msg then .move
  else if walkMatch msg then .walk
  else if spamMatch msg then .spam
  else if comboMatch msg then .combo
  else if chatMatch msg then .chat
  else if selectMatch msg then .windowSelect
  else if simpleMatch "jump".data msg then .simple "jump"
  else if simpleMatch "stop".data msg then .simple "stop"
  else if simpleMatch "status".data msg then .simple "status"
  else if simpleMatch "on".data msg then .simple "enable"
  else if simpleMatch "off".data msg then .simple "disable"
  else if simpleMatch "reset".data msg then .simple "reset"
  else if simpleMatch "find".data msg then .simple "find_window"
  else if simpleMatch "windows".data msg then .simple "list_windows"
  else if simpleMatch "aiclose".data msg then .simple "ai_close"
  else if simpleMatch "aiopen".data msg then .simple "ai_open"
  else .unrecognized

/-- First-match evaluation of a declarative grammar table. -/
def firstMatch : List ((List Char → Bool) × Command) → List Char → Command
  | [], _ => .unrecognized
  | (m, c) :: rest, msg => if m msg then c else firstMatch rest msg

/-- Modelled from the spec: the declarative priority-ordered grammar table
of §4.2 — personality management (create, switch, list) first, then the
generic ask, then the movement family (move, walk, spam, combo), then
chat, then window-select, then the simple no-argument commands.  Declared
to be compared with `parseCommand`, which is translated from the source. -/
def specGrammarTable : List ((List Char → Bool) × Command) :=
  [ (newaiMatch, .createPersonality)
  , (switchaiMatch, .switchPersonality)
  , (listaiMatch, .listPersonalities)
  , (aiMatch, .ask)
  , (moveMatch, .move)
  , (walkMatch, .walk)
  , (spamMatch, .spam)
  , (comboMatch, .combo)
  , (chatMatch, .chat)
  , (selectMatch, .windowSelect)
  , (simpleMatch "jump".data, .simple "jump")
  , (simpleMatch "stop".data, .simple "stop")
  , (simpleMatch "status".data, .simple "status")
  , (simpleMatch "on".data, .simple "enable")
  , (simpleMatch "off".data, .simple "disable")
  , (simpleMatch "reset".data, .simple "reset")
  , (simpleMatch "find".data, .simple "find_window")
  , (simpleMatch "windows".data, .simple "list_windows")
  , (simpleMatch "aiclose".data, .simple "ai_close")
  , (simpleMatch "aiopen".data, .simple "ai_open")
  ]

/-! ### Command dispatch and handler exception behaviour

Embeds the handler bodies called by `_process_command`
(`src/core/game_controller.py`, lines 444-834).  A raised Python exception
is modelled as `Except.error`; `try`/`except Exception` blocks become
`match` on the guarded body.  External calls are abstracted into an
environment record carrying the outcome of each call. -/

/-- Outcomes of the external calls a handler can make. -/
structure DispatchEnv where
  /-- Truthiness of `self.window_controller`. -/
  windowControllerPresent : Bool
  /-- Outcome of `self.window_controller.is_window_valid()` (raises when the
  controller reference is missing or broken). -/
  windowValidCheck : Except String Bool
  /-- Outcome of one `self._send_bot_message(...)` call. -/
  sendBot : Except String Unit
  /-- Outcome of `self.advanced_gemini.create_new_ai(...)`. -/
  createAi : Except String (List Char)
  /-- Outcome of `self.advanced_gemini.switch_to_ai(...)`. -/
  switchAi : Except String (List Char)
  /-- Outcome of `self.advanced_gemini.list_personalities()`. -/
  listAi : Except String (List Char)
  /-- Outcome of `self.advanced_gemini.ask_question(...)`. -/
  askAi : Except String (List Char)
  /-- Outcome of the `move_character` burst run in the executor. -/
  moveChar : Except String Unit
  /-- Outcome of the spam loop run in the executor. -/
  spamRun : Except String Unit
  /-- Outcome of the combo loop run in the executor. -/
  comboRun : Except String Unit
  /-- Outcome of `send_chat_to_window` run in the executor. -/
  chatSend : Except String Bool
  /-- Outcome of the jump burst run in the executor. -/
  jumpRun : Except String Unit
  /-- Outcome of `set_bot_window()` run in the executor. -/
  findRun : Except String Unit
  /-- Outcome of `list_windows()` and the per-window sends. -/
  listWinRun : Except String Unit
  /-- Whether `int(search_term)` succeeds in `_execute_window_select`. -/
  selectIsIndex : Bool
  /-- Outcome of `switch_to_window(index)` run in the executor. -/
  switchWinRun : Except String Bool
  /-- Outcome of `set_bot_window(title)` run in the executor. -/
  selectWinRun : Except String Bool

/-- `_execute_newai_command` (lines 445-463): send a notice, create the AI,
send the result — all inside `try`; on exception, log and send one error
message (whose own failure propagates). -/
def executeNewaiCommand (env : DispatchEnv) : Except String Unit :=
  match (do env.sendBot; let _ ← env.createAi; env.sendBot : Except String Unit) with
  | .ok u => .ok u
  | .error _ => env.sendBot

/-- `_execute_switchai_command` (lines 465-479): same `try`/`except`
shape as `_execute_newai_command`. -/
def executeSwitchaiCommand (env : DispatchEnv) : Except String Unit :=
  match (do env.sendBot; let _ ← env.switchAi; env.sendBot : Except String Unit) with
  | .ok u => .ok u
  | .error _ => env.sendBot

/-- `_execute_listai_command` (lines 481-500): list the personalities and
send the lines, inside `try`; on exception, log and send one error
message. -/
def executeListaiCommand (env : DispatchEnv) : Except String Unit :=
  match (do let _ ← env.listAi; env.sendBot : Except String Unit) with
  | .ok u => .ok u
  | .error _ => env.sendBot

/-- `_execute_ai_command` (lines 502-537): send a notice, ask the current
AI, send the chunks, inside `try`; on exception, log and send one error
message. -/
def executeAiCommand (env : DispatchEnv) : Except String Unit :=
  match (do env.sendBot; let _ ← env.askAi; env.sendBot : Except String Unit) with
  | .ok u => .ok u
  | .error _ => env.sendBot

/-- `_execute_move` (lines 584-593): check the window, then run the burst in
the executor — with no `try`/`except`, so a raise propagates to the
caller. -/
def executeMoveCommand (env : DispatchEnv) : Except String Unit := do
  let v ← env.windowValidCheck
  if v then env.moveChar else .ok ()

/-- `_execute_walk` (lines 595-604): cancel any previous movement task and
spawn the new loop; nothing raises synchronously (the loop body is a
background task, modelled in the movement section). -/
def executeWalkCommand (_env : DispatchEnv) : Except String Unit := .ok ()

/-- `_execute_spam` (lines 621-636): window check then the executor loop,
with no `try`/`except`. -/
def executeSpamCommand (env : DispatchEnv) : Except String Unit := do
  let v ← env.windowValidCheck
  if v then env.spamRun else .ok ()

/-- `_execute_combo` (lines 638-654): window check then the executor loop,
with no `try`/`except`. -/
def executeComboCommand (env : DispatchEnv) : Except String Unit := do
  let v ← env.windowValidCheck
  if v then env.comboRun else .ok ()

/-- `_execute_chat` (lines 656-678): the executor call is inside
`try`/`except` (a send failure is only logged), but the preceding
window-validity call is not. -/
def executeChatCommand (env : DispatchEnv) : Except String Unit :=
  if env.windowControllerPresent then do
    let v ← env.windowValidCheck
    if v then
      match env.chatSend with
      | .ok _ => .ok ()
      | .error _ => .ok ()
    else .ok ()
  else .ok ()

/-- `_execute_window_select` (lines 750-787): the numeric-index branch runs
inside a `try` that catches only `ValueError`, so executor or send
failures propagate; the title branch is guarded by `try`/`except
Exception`, whose handler sends one more message. -/
def executeWindowSelectCommand (env : DispatchEnv) : Except String Unit :=
  if env.selectIsIndex then do
    let _ ← env.switchWinRun
    env.sendBot
  else
    match (do let _ ← env.selectWinRun; env.sendBot : Except String Unit) with
    | .ok u => .ok u
    | .error _ => env.sendBot

/-- `_execute_command` (lines 680-748) for the simple keyword commands and
`_execute_list_windows` (lines 789-834).  `stop`, `status`, `enable`,
`disable` and `reset` only mutate flags and log; `jump` and
`find_window` run executor calls with no `try`/`except`; `list_windows`
guards its body with `try`/`except Exception`; `ai_close` and `ai_open`
end with an unguarded send. -/
def executeSimpleCommand (env : DispatchEnv) (n : String) : Except String Unit :=
  if n == "jump" then do
    let v ← env.windowValidCheck
    if v then env.jumpRun else .ok ()
  else if n == "find_window" then
    if env.windowControllerPresent then env.findRun else .ok ()
  else if n == "list_windows" then
    if !env.windowControllerPresent then env.sendBot
    else
      match (do let _ ← env.listWinRun; env.sendBot : Except String Unit) with
      | .ok u => .ok u
      | .error _ => env.sendBot
  else if n == "ai_close" then env.sendBot
  else if n == "ai_open" then env.sendBot
  else .ok ()

/-- `BackgroundGameController._process_command` (lines 342-442): route the
message to its handler.  The dispatcher itself has no `try`/`except`, so
whatever a handler raises escapes command processing. -/
def processCommand (env : DispatchEnv) (msg : List Char) : Except String Unit :=
  match parseCommand msg with
  | .createPersonality => executeNewaiCommand env
  | .switchPersonality => executeSwitchaiCommand env
  | .listPersonalities => executeListaiCommand env
  | .ask => executeAiCommand env
  | .move => executeMoveCommand env
  | .walk => executeWalkCommand env
  | .spam => executeSpamCommand env
  | .combo => executeComboCommand env
  | .chat => executeChatCommand env
  | .windowSelect => executeWindowSelectCommand env
  | .simple n => executeSimpleCommand env n
  | .unrecognized => .ok ()

/-! ### Identity tracking

Embeds `BackgroundGameController._track_login` (lines 238-263),
`_is_command_to_bot` (lines 311-340), `_on_room_message` (lines 265-278)
and `_on_whisper_message` (lines 280-309).  Python truthiness of the two
username fields (`None` and the empty string are both falsy) is modelled
by `truthy`. -/

/-- The identity-relevant state of `BackgroundGameController`. -/
structure IdState where
  controllerUsername : Option (List Char)
  botUsername : Option (List Char)
  enabled : Bool
  windowControllerPresent : Bool
deriving DecidableEq

/-- Python truthiness of an optional string field. -/
def truthy : Option (List Char) → Bool
  | none => false
  | some s => !s.isEmpty

/-- Case-insensitive username comparison, `a.lower() == b.lower()`. -/
def lowEq (a b : List Char) : Bool := toLowerStr a == toLowerStr b

/-- Whether a stripped message starts with the command sigil. -/
def startsWithDollar : List Char → Bool
  | '$' :: _ => true
  | _ => false

/-- `BackgroundGameController._track_login`: a login by the configured
controller only tags the connection; otherwise the first unknown account
becomes the bot, and a further unknown account becomes the controller if
that field is still `None`. -/
def trackLogin (st : IdState) (username : List Char) : IdState :=
  if truthy st.controllerUsername &&
      lowEq username (st.controllerUsername.getD []) then
    st
  else if st.botUsername.isNone then
    { st with botUsername := some username }
  else if st.controllerUsername.isNone then
    { st with controllerUsername := some username }
  else
    st

/-- `BackgroundGameController._is_command_to_bot(sender, receiver, message)`:
the four-case rule, returning the decision and the possibly-updated
identity state (cases 2-4 learn identities as a side effect). -/
def isCommandToBot (st : IdState) (sender receiver message : List Char) :
    Bool × IdState :=
  if truthy st.controllerUsername && truthy st.botUsername then
    (lowEq sender (st.controllerUsername.getD []) &&
       lowEq receiver (st.botUsername.getD []), st)
  else if truthy st.controllerUsername &&
      lowEq sender (st.controllerUsername.getD []) then
    (true,
     if truthy st.botUsername then st else { st with botUsername := some receiver })
  else if truthy st.botUsername && lowEq receiver (st.botUsername.getD []) then
    (true,
     if truthy st.controllerUsername then st
     else { st with controllerUsername := some sender })
  else if !truthy st.controllerUsername && !truthy st.botUsername then
    if startsWithDollar (pyStrip message) then
      (true, { st with controllerUsername := some sender,
                       botUsername := some receiver })
    else
      (false, st)
  else
    (false, st)

/-- `BackgroundGameController._on_room_message`: requires the bot enabled
and a window controller; drops messages from anyone other than a known
controller; otherwise hands the message to `_process_command`.  The room
path never writes the identity fields; the dispatched command (if any) is
returned. -/
def onRoomMessage (st : IdState) (username message : List Char) :
    Option Command :=
  if !st.enabled || !st.windowControllerPresent then none
  else if truthy st.controllerUsername &&
      !lowEq username (st.controllerUsername.getD []) then none
  else some (parseCommand message)

/-- `BackgroundGameController._on_whisper_message`: requires the bot
enabled and non-empty sender, receiver and message fields; consults
`_is_command_to_bot` (which may learn identities) and dispatches on a
positive answer. -/
def onWhisperMessage (st : IdState) (sender receiver message : List Char) :
    IdState × Option Command :=
  if !st.enabled then (st, none)
  else if sender.isEmpty || receiver.isEmpty || message.isEmpty then (st, none)
  else
    let br := isCommandToBot st sender receiver message
    (br.2, if br.1 then some (parseCommand message) else none)

/-- An inbound protocol event, as delivered by the registered packet
listeners. -/
inductive ProtoEvent where
  | login (username : List Char)
  | room (username message : List Char)
  | whisper (sender receiver message : List Char)

/-- The effect of one observed event on the identity fields: logins go
through `_track_login`, whispers through `_on_whisper_message`, and room
messages never write identities. -/
def stepIdentity (st : IdState) : ProtoEvent → IdState
  | .login u => trackLogin st u
  | .room _ _ => st
  | .whisper s r m => (onWhisperMessage st s r m).1

/-! ### Continuous movement

Embeds `BackgroundGameController._execute_walk` (lines 595-604).  Asyncio
tasks are modelled as records; `task.cancel()` marks the task cancelled
(the loop in `_continuous_walk` observes it cooperatively), and a task
counts as active until its cancellation has been requested. -/

/-- A walking direction accepted by `$walk`. -/
inductive WalkDir where
  | left
  | right
deriving DecidableEq

/-- One spawned `_continuous_walk` task. -/
structure TaskRec where
  id : Nat
  dir : WalkDir
  cancelled : Bool
deriving DecidableEq

/-- Movement-relevant controller state: all tasks ever spawned, the
`self.movement_task` reference, `self.continuous_movement`, and a fresh-id
counter. -/
structure MoveState where
  tasks : List TaskRec
  currentTask : Option Nat
  continuousMovement : Option WalkDir
  nextId : Nat
deriving DecidableEq

/-- An observable action of `_execute_walk`, in order of occurrence. -/
inductive WalkEvent where
  | cancelRequested (id : Nat)
  | taskStarted (id : Nat) (d : WalkDir)
deriving DecidableEq

/-- Mark the task with the given id cancelled. -/
def cancelTask (ts : List TaskRec) (i : Nat) : List TaskRec :=
  ts.map fun t => if t.id == i then { t with cancelled := true } else t

/-- `BackgroundGameController._execute_walk(direction)`: if a movement task
exists, cancel it first; then set `continuous_movement` and spawn the new
`_continuous_walk` task.  The returned event list records the order of the
two observable actions. -/
def executeWalk (st : MoveState) (d : WalkDir) : MoveState × List WalkEvent :=
  match st.currentTask with
  | some i =>
    ({ tasks := cancelTask st.tasks i ++ [⟨st.nextId, d, false⟩]
       currentTask := some st.nextId
       continuousMovement := some d
       nextId := st.nextId + 1 },
     [.cancelRequested i, .taskStarted st.nextId d])
  | none =>
    ({ tasks := st.tasks ++ [⟨st.nextId, d, false⟩]
       currentTask := some st.nextId
       continuousMovement := some d
       nextId := st.nextId + 1 },
     [.taskStarted st.nextId d])

/-- The tasks whose cancellation has not been requested. -/
def activeTasks (st : MoveState) : List TaskRec :=
  st.tasks.filter fun t => !t.cancelled

/-- Well-formedness maintained by the movement coordinator: every
not-yet-cancelled task is the one `self.movement_task` points to, and all
spawned ids are below the fresh counter. -/
def WalkInv (st : MoveState) : Prop :=
  (∀ t ∈ st.tasks, t.cancelled = false → st.currentTask = some t.id) ∧
  (∀ t ∈ st.tasks, t.id < st.nextId)

/-! ### Outbound message splitter

Embeds `BackgroundGameController._split_message_smart`
(`src/core/game_controller.py`, lines 539-578). -/

/-- The forced-split marker `"..."`. -/
def dots : List Char := ['.', '.', '.']

/-- The word loop of `_split_message_smart` (lines 548-568), recursing over
the words with the accumulated chunk list and the current chunk. -/
def splitLoop (maxLen : Nat) :
    List (List Char) → List (List Char) → List Char →
    List (List Char) × List Char
  | [], chunks, current => (chunks, current)
  | w :: ws, chunks, current =>
    let test := if current.isEmpty then w else pyStrip (current ++ ' ' :: w)
    if test.length ≤ maxLen then
      splitLoop maxLen ws chunks test
    else if current.isEmpty then
      if maxLen < w.length then
        splitLoop maxLen ws
          (chunks ++ [pySliceTo w ((maxLen : Int) - 3) ++ dots])
          (dots ++ pySliceFrom w ((maxLen : Int) - 3))
      else
        splitLoop maxLen ws chunks w
    else
      splitLoop maxLen ws (chunks ++ [current]) w

/-- `BackgroundGameController._split_message_smart(text, max_length)`. -/
def splitMessageSmart (text : List Char) (maxLen : Nat) : List (List Char) :=
  if text.length ≤ maxLen then [text]
  else
    let r := splitLoop maxLen (pyWords text) [] []
    let chunks := if r.2.isEmpty then r.1 else r.1 ++ [r.2]
    if chunks.isEmpty then [text.take maxLen] else chunks

/-- Space-join of a group of words, the shape every non-forced chunk takes. -/
def joinSp : List (List Char) → List Char
  | [] => []
  | w :: ws =>
    match ws with
    | [] => w
    | _ :: _ => w ++ ' ' :: joinSp ws

/-! ### Concrete states used by the closed theorems below -/

/-- A page whose only selector already holds one valid response. -/
def stalePage : PageState :=
  ⟨[["Salam khouya, labas 3lik?".data]], [], [], []⟩

/-- An exchange in which every step succeeds but the response count never
rises above the baseline of one existing response. -/
def staleEnv : ExchangeEnv :=
  ⟨false, true, [1], [1, 1, 1], stalePage⟩

/-- A page with no content at all. -/
def emptyPage : PageState := ⟨[], [], [], []⟩

/-! ### Helper lemmas -/

/-- A successful `findSome?` is witnessed by a member of the list. -/
theorem findSome?_mem {α β : Type} {f : α → Option β} {l : List α} {b : β}
    (h : l.findSome? f = some b) : ∃ a ∈ l, f a = some b := by
  induction l with
  | nil => simp [List.findSome?] at h
  | cons x xs ih =>
    rw [List.findSome?_cons] at h
    cases hx : f x with
    | some v =>
      rw [hx] at h
      exact ⟨x, List.mem_cons_self x xs, hx.trans h⟩
    | none =>
      rw [hx] at h
      obtain ⟨a, ha, hfa⟩ := ih h
      exact ⟨a, List.mem_cons_of_mem x ha, hfa⟩

/-- The candidate picker used by the extraction strategies only ever
returns texts passing the validity filter. -/
theorem pickValid_eq_some {t r : List Char}
    (h : (let s := pyStrip t
          if isValidResponse s then some s else none) = some r) :
    isValidResponse r = true := by
  by_cases hv : isValidResponse (pyStrip t) = true
  · simp only [hv, if_true] at h
    cases h
    exact hv
  · simp only [if_neg hv] at h
    simp at h

/-- Anything `_wait_for_response` returns passes the validity filter. -/
theorem waitForResponse_valid {page : PageState} {r : List Char}
    (h : waitForResponse page = some r) : isValidResponse r = true := by
  unfold waitForResponse at h
  cases h1 : extractPrimary page with
  | some v =>
    rw [h1] at h
    cases h
    obtain ⟨elems, _, he⟩ := findSome?_mem h1
    obtain ⟨t, _, ht⟩ := findSome?_mem he
    exact pickValid_eq_some ht
  | none =>
    rw [h1] at h
    cases h2 : extractParagraphs page with
    | some v =>
      rw [h2] at h
      cases h
      obtain ⟨t, _, ht⟩ := findSome?_mem h2
      exact pickValid_eq_some ht
    | none =>
      rw [h2] at h
      cases h3 : extractSource page with
      | some v =>
        rw [h3] at h
        cases h
        obtain ⟨t, _, ht⟩ := findSome?_mem h3
        exact pickValid_eq_some ht
      | none =>
        rw [h3] at h
        unfold extractJs at h
        cases h4 : (page.jsTexts.map pyStrip |>.filter jsPreFilter).getLast? with
        | some t =>
          rw [h4] at h
          by_cases hv : isValidResponse t = true
          · have ht : t = r := by simpa [hv] using h
            exact ht ▸ hv
          · exact absurd h (by simp [hv])
        | none =>
          rw [h4] at h
          simp at h

/-- Anything `_send_message` returns passes the validity filter. -/
theorem sendMessageModel_valid {env : ExchangeEnv} {r : List Char}
    (h : sendMessageModel env = some r) : isValidResponse r = true := by
  unfold sendMessageModel waitForNewResponse at h
  split at h
  · simp at h
  · split at h
    · simp at h
    · split at h
      · exact waitForResponse_valid h
      · exact waitForResponse_valid h

/-! ### C9 — response validity filter -/

/-- C9: the validity filter rejects the placeholder "Ask Gemini anything"
and accepts "Salam khouya, labas 3lik?"; in general it accepts exactly the
texts that are non-empty, at least three characters long, contain at least
three alphabetic (Latin or Arabic-script) characters, and contain no
denylisted phrase. -/
theorem validityFilterCharacterization :
    isValidResponse "Ask Gemini anything".data = false ∧
    isValidResponse "Salam khouya, labas 3lik?".data = true ∧
    ∀ t : List Char,
      isValidResponse t = true ↔
        (t ≠ [] ∧ 3 ≤ t.length ∧ 3 ≤ letterCount t ∧
         ∀ p ∈ invalidPatterns, containsSub p (toLowerStr t) = false) := by
  refine ⟨by decide, by decide, fun t => ?_⟩
  unfold isValidResponse
  constructor
  · intro h
    split_ifs at h with h1 h2 h3
    push_neg at h1
    refine ⟨h1.1, by omega, by omega, ?_⟩
    intro p hp
    cases hb : containsSub p (toLowerStr t) with
    | false => rfl
    | true => exact absurd (List.any_eq_true.mpr ⟨p, hp, hb⟩) h2
  · rintro ⟨hne, hlen, hcnt, hpat⟩
    have h1 : ¬(t = [] ∨ t.length < 3) := by
      push_neg
      exact ⟨hne, by omega⟩
    have h2 : ¬(invalidPatterns.any (fun p => containsSub p (toLowerStr t)) = true) := by
      intro hany
      obtain ⟨p, hp, hcp⟩ := List.any_eq_true.mp hany
      rw [hpat p hp] at hcp
      exact Bool.false_ne_true hcp
    have h3 : ¬(letterCount t < 3) := by omega
    rw [if_neg h1, if_neg h2, if_neg h3]

/-! ### C1 — exchange on detection timeout -/

/-- C1 counterexample: an exchange whose detector never reports a count
above the baseline (the polled counts all equal the baseline of one) still
returns the response text that was already present on the page before the
message was submitted, instead of a failure result. -/
theorem exchangeTimeoutStaleCex :
    pollForIncrease staleEnv.polledCounts (countResponses staleEnv.baselineCounts)
        = false ∧
    staleEnv.page.selectorTexts = [["Salam khouya, labas 3lik?".data]] ∧
    sendMessageModel staleEnv = some "Salam khouya, labas 3lik?".data := by
  decide

/-- C1 amended: when the detector never observes an increase within the
wait budget, the exchange does not fail — it still runs extraction over
the page exactly as in the detected case, and may therefore return text
already present before submission; what it can never return is a
denylisted placeholder, since every returned text passes the validity
filter. -/
theorem exchangeTimeoutAmended (polled : List Nat) (initial : Nat)
    (page : PageState) (h : pollForIncrease polled initial = false) :
    waitForNewResponse polled initial page = waitForResponse page ∧
    ∀ r, waitForNewResponse polled initial page = some r →
      isValidResponse r = true := by
  constructor
  · unfold waitForNewResponse
    rw [if_neg (by simp [h])]
  · intro r hr
    unfold waitForNewResponse at hr
    rw [if_neg (by simp [h])] at hr
    exact waitForResponse_valid hr

/-- Witness for `exchangeTimeoutAmended` at a concrete timed-out poll trace
and the empty page. -/
theorem exchangeTimeoutAmendedWitness :
    pollForIncrease [0, 0] 3 = false ∧
    (waitForNewResponse [0, 0] 3 emptyPage = waitForResponse emptyPage ∧
     ∀ r, waitForNewResponse [0, 0] 3 emptyPage = some r →
       isValidResponse r = true) :=
  ⟨by decide, exchangeTimeoutAmended [0, 0] 3 emptyPage (by decide)⟩

/-! ### C6 — grammar priority order -/

/-- C6: the dispatcher evaluates the grammar in the fixed claimed priority
order — it coincides with first-match evaluation of the declarative
spec-ordered table — and in particular a message matched by the
personality-creation pattern is always dispatched as the
personality-management command, never as the generic ask; an ask-matching
message is dispatched as ask unless one of the personality-management
patterns (which sit above it) claims it first. -/
theorem commandGrammarPriority :
    (∀ msg, parseCommand msg = firstMatch specGrammarTable msg) ∧
    (∀ msg, newaiMatch msg = true →
      parseCommand msg = Command.createPersonality) ∧
    (∀ msg, aiMatch msg = true →
      parseCommand msg = Command.createPersonality ∨
      parseCommand msg = Command.switchPersonality ∨
      parseCommand msg = Command.listPersonalities ∨
      parseCommand msg = Command.ask) := by
  refine ⟨fun msg => rfl, fun msg h => by simp [parseCommand, h], fun msg h => ?_⟩
  by_cases h1 : newaiMatch msg = true
  · simp [parseCommand, h1]
  · by_cases h2 : switchaiMatch msg = true
    · simp [parseCommand, h1, h2]
    · by_cases h3 : listaiMatch msg = true
      · simp [parseCommand, h1, h2, h3]
      · simp [parseCommand, h1, h2, h3, h]

/-- Witness for `commandGrammarPriority` at concrete command strings. -/
theorem commandGrammarPriorityWitness :
    newaiMatch "$newai --darija --anime".data = true ∧
    parseCommand "$newai --darija --anime".data = Command.createPersonality ∧
    aiMatch "$ask hello".data = true ∧
    parseCommand "$ask hello".data = Command.ask :=
  ⟨by decide, commandGrammarPriority.2.1 "$newai --darija --anime".data (by decide),
   by decide, by decide⟩

/-! ### C2 — handler failures at the dispatcher -/

/-- A dispatch environment in which every external call succeeds. -/
def okDispatchEnv : DispatchEnv :=
  { windowControllerPresent := true
    windowValidCheck := .ok true
    sendBot := .ok ()
    createAi := .ok []
    switchAi := .ok []
    listAi := .ok []
    askAi := .ok []
    moveChar := .ok ()
    spamRun := .ok ()
    comboRun := .ok ()
    chatSend := .ok true
    jumpRun := .ok ()
    findRun := .ok ()
    listWinRun := .ok ()
    selectIsIndex := false
    switchWinRun := .ok true
    selectWinRun := .ok true }

/-- An environment in which the `move_character` executor call raises. -/
def moveFailEnv : DispatchEnv := { okDispatchEnv with moveChar := .error "boom" }

/-- An environment in which `ask_question` raises. -/
def askFailEnv : DispatchEnv := { okDispatchEnv with askAi := .error "boom" }

/-- C2 counterexample: an exception raised inside the handler that the
dispatcher routes `$move right 50` to (`_execute_move` has no
`try`/`except`) is not caught per-command — it propagates out of
`_process_command` instead of resolving to a logged success. -/
theorem dispatchMoveErrorPropagatesCex :
    parseCommand "$move right 50".data = Command.move ∧
    processCommand moveFailEnv "$move right 50".data = .error "boom" :=
  ⟨by decide, rfl⟩

/-- C2 amended: only the AI-family handlers (`newai`, `switchai`, `listai`,
`ai`/`ask`) wrap their bodies in `try`/`except Exception`, so their
failures are caught and logged per-command (provided the error
notification itself can be sent); failures raised inside the movement
handlers — `_execute_move` in particular — are not caught in
`_process_command` and propagate out of command processing unchanged. -/
theorem dispatchAiHandlersCatchAmended (env : DispatchEnv) (msg : List Char)
    (hs : env.sendBot = .ok ()) :
    ((parseCommand msg = Command.createPersonality ∨
      parseCommand msg = Command.switchPersonality ∨
      parseCommand msg = Command.listPersonalities ∨
      parseCommand msg = Command.ask) →
      processCommand env msg = .ok ()) ∧
    (parseCommand msg = Command.move → env.windowValidCheck = .ok true →
      processCommand env msg = env.moveChar) := by
  constructor
  · intro h
    rcases h with h | h | h | h
    · cases hc : env.createAi <;>
        simp [processCommand, h, executeNewaiCommand, hs, hc, Bind.bind, Except.bind]
    · cases hc : env.switchAi <;>
        simp [processCommand, h, executeSwitchaiCommand, hs, hc, Bind.bind, Except.bind]
    · cases hc : env.listAi <;>
        simp [processCommand, h, executeListaiCommand, hs, hc, Bind.bind, Except.bind]
    · cases hc : env.askAi <;>
        simp [processCommand, h, executeAiCommand, hs, hc, Bind.bind, Except.bind]
  · intro h hv
    cases hm : env.moveChar <;>
      simp [processCommand, h, executeMoveCommand, hv, hm, Bind.bind, Except.bind]

/-- Witness for `dispatchAiHandlersCatchAmended`: a raising `ask_question`
is caught, while a raising `move_character` propagates. -/
theorem dispatchAiHandlersCatchAmendedWitness :
    askFailEnv.sendBot = .ok () ∧
    processCommand askFailEnv "$ai hi".data = .ok () ∧
    processCommand moveFailEnv "$move left 5".data = moveFailEnv.moveChar :=
  ⟨rfl,
   (dispatchAiHandlersCatchAmended askFailEnv "$ai hi".data rfl).1
     (Or.inr (Or.inr (Or.inr (by decide)))),
   (dispatchAiHandlersCatchAmended moveFailEnv "$move left 5".data rfl).2
     (by decide) rfl⟩

/-! ### C7 — single continuous-movement task -/

/-- Previously active tasks are all cancelled by `cancelTask` on the
current id, provided every active task carries that id. -/
theorem cancelTask_all_cancelled (ts : List TaskRec) (i : Nat)
    (h : ∀ t ∈ ts, t.cancelled = false → t.id = i) :
    ∀ t ∈ cancelTask ts i, t.cancelled = true := by
  intro t ht
  simp only [cancelTask, List.mem_map] at ht
  obtain ⟨u, hu, rfl⟩ := ht
  by_cases hui : (u.id == i) = true
  · simp [hui]
  · simp only [hui, Bool.false_eq_true, if_false]
    cases hcu : u.cancelled with
    | true => rfl
    | false => exact absurd (by simpa using h u hu hcu) hui

/-- C7: every `walk` request cancels the existing continuous-movement task
(if any) before spawning its own, so a well-formed state steps to a state
whose only active task is the freshly spawned one, bound to the requested
direction; concretely, `walk right` then `walk left` from an idle state
leaves exactly one active task bound to `left`, with the `right` task
cancelled before the `left` task starts. -/
theorem walkSingleActiveTask :
    (∀ st d, WalkInv st →
      activeTasks (executeWalk st d).1 = [⟨st.nextId, d, false⟩] ∧
      WalkInv (executeWalk st d).1) ∧
    (activeTasks (executeWalk (executeWalk ⟨[], none, none, 0⟩ .right).1 .left).1
        = [⟨1, .left, false⟩] ∧
     (executeWalk (executeWalk ⟨[], none, none, 0⟩ .right).1 .left).1.continuousMovement
        = some .left ∧
     (executeWalk (executeWalk ⟨[], none, none, 0⟩ .right).1 .left).2
        = [.cancelRequested 0, .taskStarted 1 .left] ∧
     (⟨0, .right, true⟩ : TaskRec) ∈
        (executeWalk (executeWalk ⟨[], none, none, 0⟩ .right).1 .left).1.tasks) := by
  constructor
  · intro st d ⟨hcur, hid⟩
    cases hc : st.currentTask with
    | some i =>
      have hall : ∀ t ∈ st.tasks, t.cancelled = false → t.id = i := by
        intro t ht htc
        have := hcur t ht htc
        rw [hc] at this
        exact (Option.some_injective _ this).symm
      have hnil : (cancelTask st.tasks i).filter (fun t => !t.cancelled) = [] := by
        rw [List.filter_eq_nil_iff]
        intro t ht
        simp [cancelTask_all_cancelled st.tasks i hall t ht]
      constructor
      · simp only [executeWalk, hc, activeTasks, List.filter_append, hnil]
        simp
      · constructor
        · intro t ht htc
          simp only [executeWalk, hc] at ht ⊢
          rcases List.mem_append.mp ht with ht | ht
          · exact absurd htc (by simp [cancelTask_all_cancelled st.tasks i hall t ht])
          · simp only [List.mem_singleton] at ht
            rw [ht]
        · intro t ht
          simp only [executeWalk, hc] at ht ⊢
          rcases List.mem_append.mp ht with ht | ht
          · have : t.id < st.nextId := by
              simp only [cancelTask, List.mem_map] at ht
              obtain ⟨u, hu, rfl⟩ := ht
              by_cases hui : (u.id == i) = true <;> simp [hui, hid u hu]
            omega
          · simp only [List.mem_singleton] at ht
            rw [ht]
            show st.nextId < st.nextId + 1
            omega
    | none =>
      have hnone : ∀ t ∈ st.tasks, t.cancelled = true := by
        intro t ht
        cases htc : t.cancelled with
        | true => rfl
        | false =>
          have := hcur t ht htc
          rw [hc] at this
          exact absurd this (by simp)
      have hnil : st.tasks.filter (fun t => !t.cancelled) = [] := by
        rw [List.filter_eq_nil_iff]
        intro t ht
        simp [hnone t ht]
      constructor
      · simp only [executeWalk, hc, activeTasks, List.filter_append, hnil]
        simp
      · constructor
        · intro t ht htc
          simp only [executeWalk, hc] at ht ⊢
          rcases List.mem_append.mp ht with ht | ht
          · exact absurd htc (by simp [hnone t ht])
          · simp only [List.mem_singleton] at ht
            rw [ht]
        · intro t ht
          simp only [executeWalk, hc] at ht ⊢
          rcases List.mem_append.mp ht with ht | ht
          · have := hid t ht
            omega
          · simp only [List.mem_singleton] at ht
            rw [ht]
            show st.nextId < st.nextId + 1
            omega
  · refine ⟨by decide, by decide, by decide, by decide⟩

/-- Witness for the invariant-preservation half of `walkSingleActiveTask`
at a concrete one-task state. -/
theorem walkSingleActiveTaskWitness :
    WalkInv ⟨[⟨0, WalkDir.right, false⟩], some 0, some WalkDir.right, 1⟩ ∧
    activeTasks (executeWalk ⟨[⟨0, WalkDir.right, false⟩], some 0,
        some WalkDir.right, 1⟩ WalkDir.left).1 = [⟨1, WalkDir.left, false⟩] :=
  ⟨by constructor <;> decide,
   (walkSingleActiveTask.1 ⟨[⟨0, WalkDir.right, false⟩], some 0,
      some WalkDir.right, 1⟩ WalkDir.left (by constructor <;> decide)).1⟩

/-! ### C4 — identity immutability -/

/-- A state with the controller known from configuration and the bot still
unknown. -/
def idSt0 : IdState := ⟨some "Alice".data, none, true, true⟩

/-- The state after observing a login packet with an empty username: both
fields are now non-`None`, but the bot field holds the empty string, which
Python treats as unset. -/
def idSt1 : IdState := stepIdentity idSt0 (.login [])

/-- C4 counterexample: after a login with an empty username, both identity
fields are set (non-`None`), yet a subsequently observed whisper from the
controller still changes the bot field (case 2 of `_is_command_to_bot`
tests Python truthiness, not `None`-ness). -/
theorem identityEmptyNameMutationCex :
    (idSt1.controllerUsername ≠ none ∧ idSt1.botUsername ≠ none) ∧
    (stepIdentity idSt1
        (.whisper "Alice".data "Mouse".data "$jump".data)).botUsername
      = some "Mouse".data ∧
    idSt1.botUsername = some [] := by
  refine ⟨⟨by decide, by decide⟩, by decide, by decide⟩

/-- C4 amended: once both the controller and the bot account names are set
to non-empty strings (Python-truthy, not merely non-`None`), no
subsequently observed event — login, room message or whisper — changes
either value. -/
theorem identityTruthyImmutableAmended (st : IdState) (e : ProtoEvent)
    (hc : truthy st.controllerUsername = true)
    (hb : truthy st.botUsername = true) :
    (stepIdentity st e).controllerUsername = st.controllerUsername ∧
    (stepIdentity st e).botUsername = st.botUsername := by
  cases e with
  | login u =>
    cases hcv : st.controllerUsername with
    | none => rw [hcv] at hc; simp [truthy] at hc
    | some cs =>
      cases hbv : st.botUsername with
      | none => rw [hbv] at hb; simp [truthy] at hb
      | some bs =>
        simp only [stepIdentity, trackLogin, hcv, hbv]
        split_ifs <;> simp_all
  | room u m => exact ⟨rfl, rfl⟩
  | whisper s r m =>
    simp only [stepIdentity, onWhisperMessage]
    have hpair : (isCommandToBot st s r m).2 = st := by
      simp [isCommandToBot, hc, hb]
    split_ifs <;> simp [hpair]

/-- Witness for `identityTruthyImmutableAmended` at a fully resolved state
and a fresh login event. -/
theorem identityTruthyImmutableAmendedWitness :
    truthy (some "Alice".data) = true ∧
    (stepIdentity ⟨some "Alice".data, some "Mouse".data, true, true⟩
        (.login "Zed".data)).controllerUsername = some "Alice".data ∧
    (stepIdentity ⟨some "Alice".data, some "Mouse".data, true, true⟩
        (.login "Zed".data)).botUsername = some "Mouse".data :=
  ⟨by decide,
   (identityTruthyImmutableAmended _ _ (by decide) (by decide)).1,
   (identityTruthyImmutableAmended _ _ (by decide) (by decide)).2⟩

/-! ### C8 — controller-only dispatch on both paths -/

/-- A fully resolved identity state. -/
def idStBoth : IdState := ⟨some "Alice".data, some "Mouse".data, true, true⟩

/-- C8 counterexample: with both identities resolved, the same `$jump`
command from the controller is dispatched when it arrives as a room
message but not when it arrives as a whisper to a receiver other than the
bot account — the two input paths do not behave identically beyond the
controller restriction. -/
theorem whisperReceiverMismatchCex :
    onRoomMessage idStBoth "Alice".data "$jump".data
        = some (Command.simple "jump") ∧
    (onWhisperMessage idStBoth "Alice".data "Bob".data "$jump".data).2
        = none := by
  exact ⟨by decide, by decide⟩

/-- C8 amended: with a resolved (truthy) controller identity, a room
message or whisper whose sender is not the controller account is never
dispatched as a command, and a dispatched command parses identically on
both paths; beyond that restriction the paths differ only in their gates —
the whisper path additionally requires, once both identities are known,
that the receiver be the bot account, and the room path additionally
requires the window controller to be present. -/
theorem controllerOnlyDispatchAmended (st : IdState)
    (sender receiver message : List Char)
    (hc : truthy st.controllerUsername = true) :
    (lowEq sender (st.controllerUsername.getD []) = false →
      onRoomMessage st sender message = none ∧
      (onWhisperMessage st sender receiver message).2 = none) ∧
    (∀ c, onRoomMessage st sender message = some c →
      c = parseCommand message) ∧
    (∀ c, (onWhisperMessage st sender receiver message).2 = some c →
      c = parseCommand message) ∧
    (st.windowControllerPresent = false →
      onRoomMessage st sender message = none) := by
  refine ⟨?_, ?_, ?_, ?_⟩
  · intro hs
    constructor
    · simp [onRoomMessage, hc, hs]
    · cases htb : truthy st.botUsername with
      | true =>
        simp [onWhisperMessage, isCommandToBot, hc, htb, hs]
      | false =>
        simp [onWhisperMessage, isCommandToBot, hc, htb, hs]
  · intro c h
    unfold onRoomMessage at h
    split_ifs at h
    exact (Option.some_injective _ h).symm
  · intro c h
    unfold onWhisperMessage at h
    split_ifs at h
    simp_all
  · intro hwc
    simp [onRoomMessage, hwc]

/-- Witness for `controllerOnlyDispatchAmended`: a non-controller sender is
ignored on both paths. -/
theorem controllerOnlyDispatchAmendedWitness :
    truthy idStBoth.controllerUsername = true ∧
    lowEq "Eve".data (idStBoth.controllerUsername.getD []) = false ∧
    onRoomMessage idStBoth "Eve".data "$jump".data = none ∧
    (onWhisperMessage idStBoth "Eve".data "Mouse".data "$jump".data).2 = none :=
  ⟨by decide, by decide,
   ((controllerOnlyDispatchAmended idStBoth "Eve".data "Mouse".data
       "$jump".data (by decide)).1 (by decide)).1,
   ((controllerOnlyDispatchAmended idStBoth "Eve".data "Mouse".data
       "$jump".data (by decide)).1 (by decide)).2⟩

/-! ### C5 / C10 — personality registration -/

/-- Overwriting a present key in place makes the key map to the new value. -/
theorem dictGet_mapSet (k : List Char) (v : AIPersonality) :
    ∀ d : List (List Char × AIPersonality),
      (d.any fun kv => kv.1 == k) = true →
      dictGet (d.map fun kv => if kv.1 == k then (k, v) else kv) k = some v := by
  intro d
  induction d with
  | nil => intro h; simp at h
  | cons x xs ih =>
    intro h
    rw [List.any_cons] at h
    simp only [List.map_cons]
    by_cases hx : (x.1 == k) = true
    · simp only [hx, if_true, dictGet]
      simp
    · simp only [hx, Bool.false_eq_true, if_false, dictGet]
      refine ih ?_
      rw [Bool.or_eq_true] at h
      rcases h with h1 | h1
      · exact absurd h1 hx
      · exact h1

/-- Appending a fresh key makes the key map to the appended value. -/
theorem dictGet_appendFresh (k : List Char) (v : AIPersonality) :
    ∀ d : List (List Char × AIPersonality),
      (d.any fun kv => kv.1 == k) = false →
      dictGet (d ++ [(k, v)]) k = some v := by
  intro d
  induction d with
  | nil => intro _; simp [dictGet]
  | cons x xs ih =>
    intro h
    rw [List.any_cons] at h
    have hx : (x.1 == k) = false := (Bool.or_eq_false_iff.mp h).1
    rw [List.cons_append]
    simp only [dictGet]
    rw [if_neg (by simp [hx])]
    exact ih (Bool.or_eq_false_iff.mp h).2

/-- After a dict assignment the assigned key maps to the assigned value. -/
theorem dictGet_dictSet_self (d : List (List Char × AIPersonality))
    (k : List Char) (v : AIPersonality) :
    dictGet (dictSet d k v) k = some v := by
  unfold dictSet
  by_cases h : (d.any fun kv => kv.1 == k) = true
  · rw [if_pos h]
    exact dictGet_mapSet k v d h
  · rw [if_neg h]
    cases hb : (d.any fun kv => kv.1 == k) with
    | true => exact absurd hb h
    | false => exact dictGet_appendFresh k v d hb

/-- Overwriting an existing key keeps the registry size. -/
theorem dictSet_length_of_mem (d : List (List Char × AIPersonality))
    (k : List Char) (v : AIPersonality)
    (h : (d.any fun kv => kv.1 == k) = true) :
    (dictSet d k v).length = d.length := by
  unfold dictSet
  rw [if_pos h, List.length_map]

/-- A successful `_initialize_personality` rests on a successful
handshake exchange. -/
theorem initializePersonality_handshake {env : CreateEnv}
    (h : initializePersonality env = true) :
    ∃ resp, sendMessageModel env.handshake = some resp ∧
      isValidResponse resp = true := by
  unfold initializePersonality at h
  split_ifs at h
  obtain ⟨resp, hresp⟩ := Option.isSome_iff_exists.mp h
  exact ⟨resp, hresp, sendMessageModel_valid hresp⟩

/-- C5: a `create_new_ai` call whose initialization handshake fails leaves
the registry, the active personality and the `listai` report unchanged and
returns a failure result — no personality is registered; conversely a
created result implies a successful handshake with a validated response,
with the new personality registered under the resolved name and made
current. -/
theorem createAiFailureNoRegistration (st : GeminiState) (env : CreateEnv)
    (nameOpt : Option (List Char)) (language topic custom : List Char)
    (epochMod : Nat) (st2 : GeminiState) (r : CreateResult)
    (h : createNewAi st env nameOpt language topic custom epochMod = (st2, r)) :
    (initializePersonality env = false →
      st2.personalities = st.personalities ∧
      st2.currentPersonality = st.currentPersonality ∧
      listPersonalities st2 = listPersonalities st ∧
      ∀ n, r ≠ .created n) ∧
    (∀ n, r = .created n →
      n = resolveName nameOpt language topic epochMod ∧
      ∃ resp, sendMessageModel env.handshake = some resp ∧
        isValidResponse resp = true ∧
        dictGet st2.personalities n
          = some (mkPersonality n language topic custom true) ∧
        st2.currentPersonality
          = some (mkPersonality n language topic custom true)) := by
  unfold createNewAi at h
  by_cases hbr : (!st.isInitialized && !env.browserInitOk) = true
  · rw [if_pos hbr] at h
    rw [Prod.mk.injEq] at h
    obtain ⟨h1, h2⟩ := h
    subst h1
    subst h2
    exact ⟨fun _ => ⟨rfl, rfl, rfl, fun n hn => by cases hn⟩,
           fun n hn => by cases hn⟩
  · rw [if_neg hbr] at h
    by_cases hinit : initializePersonality env = true
    · rw [if_pos hinit] at h
      rw [Prod.mk.injEq] at h
      obtain ⟨h1, h2⟩ := h
      subst h1
      subst h2
      constructor
      · intro hfail
        rw [hinit] at hfail
        cases hfail
      · intro n hn
        cases hn
        obtain ⟨resp, hresp, hvalid⟩ := initializePersonality_handshake hinit
        exact ⟨rfl, resp, hresp, hvalid, dictGet_dictSet_self _ _ _, rfl⟩
    · rw [if_neg hinit] at h
      rw [Prod.mk.injEq] at h
      obtain ⟨h1, h2⟩ := h
      subst h1
      subst h2
      exact ⟨fun _ => ⟨rfl, rfl, rfl, fun n hn => by cases hn⟩,
             fun n hn => by cases hn⟩

/-- An exchange environment whose extraction finds nothing, so the
handshake fails. -/
def failHandshakeEnv : ExchangeEnv := ⟨false, true, [0], [0], emptyPage⟩

/-- A create environment whose handshake fails at the response step. -/
def failCreateEnv : CreateEnv := ⟨true, true, false, failHandshakeEnv⟩

/-- An exchange environment whose extraction finds a valid response. -/
def readyHandshakeEnv : ExchangeEnv := ⟨false, true, [0], [0, 1], stalePage⟩

/-- A create environment whose handshake succeeds. -/
def goodCreateEnv : CreateEnv := ⟨true, true, false, readyHandshakeEnv⟩

/-- Witness for `createAiFailureNoRegistration`: a failed handshake
registers nothing for `$newai --darija --anime --name "Zid"`. -/
theorem createAiFailureNoRegistrationWitness :
    initializePersonality failCreateEnv = false ∧
    (createNewAi ⟨true, [], none⟩ failCreateEnv (some "Zid".data)
        "darija".data "anime".data [] 7).1.personalities = [] ∧
    listPersonalities (createNewAi ⟨true, [], none⟩ failCreateEnv
        (some "Zid".data) "darija".data "anime".data [] 7).1
      = listPersonalities ⟨true, [], none⟩ ∧
    ∀ n, (createNewAi ⟨true, [], none⟩ failCreateEnv (some "Zid".data)
        "darija".data "anime".data [] 7).2 ≠ .created n := by
  have hmain := (createAiFailureNoRegistration ⟨true, [], none⟩ failCreateEnv
    (some "Zid".data) "darija".data "anime".data [] 7
    (createNewAi ⟨true, [], none⟩ failCreateEnv (some "Zid".data)
        "darija".data "anime".data [] 7).1
    (createNewAi ⟨true, [], none⟩ failCreateEnv (some "Zid".data)
        "darija".data "anime".data [] 7).2 rfl).1 (by decide)
  exact ⟨by decide, hmain.1, hmain.2.2.1, hmain.2.2.2⟩

/-- The personality registered before the duplicate-name creation of the
C10 scenario. -/
def oldBob : AIPersonality :=
  mkPersonality "bob".data "english".data "casual".data [] true

/-- A registry already holding the name `bob`. -/
def dupState : GeminiState := ⟨true, [("bob".data, oldBob)], some oldBob⟩

/-- C10: when the resolved name of a `create_new_ai` call collides with an
already-registered personality and the handshake succeeds, the existing
registry entry is silently replaced by the new personality (the registry
size is unchanged), the new personality becomes current, and the caller
sees a plain success — no error and no uniqueness check. -/
theorem createAiDuplicateOverwrite (st : GeminiState) (env : CreateEnv)
    (nameOpt : Option (List Char)) (language topic custom : List Char)
    (epochMod : Nat) (st2 : GeminiState) (r : CreateResult)
    (h : createNewAi st env nameOpt language topic custom epochMod = (st2, r))
    (hbr : (!st.isInitialized && !env.browserInitOk) = false)
    (hinit : initializePersonality env = true)
    (hdup : (st.personalities.any fun kv =>
        kv.1 == resolveName nameOpt language topic epochMod) = true) :
    r = .created (resolveName nameOpt language topic epochMod) ∧
    dictGet st2.personalities (resolveName nameOpt language topic epochMod)
      = some (mkPersonality (resolveName nameOpt language topic epochMod)
          language topic custom true) ∧
    st2.currentPersonality
      = some (mkPersonality (resolveName nameOpt language topic epochMod)
          language topic custom true) ∧
    st2.personalities.length = st.personalities.length := by
  unfold createNewAi at h
  rw [if_neg (by simp [hbr]), if_pos hinit, Prod.mk.injEq] at h
  obtain ⟨h1, h2⟩ := h
  subst h1
  subst h2
  exact ⟨rfl, dictGet_dictSet_self _ _ _, rfl,
         dictSet_length_of_mem _ _ _ hdup⟩

/-- Witness for `createAiDuplicateOverwrite`: recreating `bob` with new
language and topic silently replaces the old `bob`. -/
theorem createAiDuplicateOverwriteWitness :
    (dupState.personalities.any fun kv => kv.1 ==
        resolveName (some "bob".data) "darija".data "anime".data 7) = true ∧
    (createNewAi dupState goodCreateEnv (some "bob".data) "darija".data
        "anime".data [] 7).2
      = .created (resolveName (some "bob".data) "darija".data "anime".data 7) ∧
    dictGet (createNewAi dupState goodCreateEnv (some "bob".data) "darija".data
        "anime".data [] 7).1.personalities
        (resolveName (some "bob".data) "darija".data "anime".data 7)
      = some (mkPersonality (resolveName (some "bob".data) "darija".data
          "anime".data 7) "darija".data "anime".data [] true) ∧
    (createNewAi dupState goodCreateEnv (some "bob".data) "darija".data
        "anime".data [] 7).1.personalities.length
      = dupState.personalities.length := by
  have hmain := createAiDuplicateOverwrite dupState goodCreateEnv
    (some "bob".data) "darija".data "anime".data [] 7
    (createNewAi dupState goodCreateEnv (some "bob".data) "darija".data
        "anime".data [] 7).1
    (createNewAi dupState goodCreateEnv (some "bob".data) "darija".data
        "anime".data [] 7).2 rfl (by decide) (by decide) (by decide)
  exact ⟨by decide, hmain.1, hmain.2.1, hmain.2.2.2⟩

/-! ### C3 — outbound message splitter -/

/-- Words accumulated by `wordsAux` are non-empty and whitespace-free. -/
theorem wordsAux_sound :
    ∀ (s acc : List Char), (∀ c ∈ acc, isWsChar c = false) →
    ∀ w ∈ wordsAux s acc, w ≠ [] ∧ ∀ c ∈ w, isWsChar c = false := by
  intro s
  induction s with
  | nil =>
    intro acc hacc w hw
    unfold wordsAux at hw
    by_cases he : acc.isEmpty = true
    · rw [if_pos he] at hw
      simp at hw
    · rw [if_neg he] at hw
      simp only [List.mem_singleton] at hw
      subst hw
      refine ⟨?_, ?_⟩
      · intro hnil
        rw [List.reverse_eq_nil_iff] at hnil
        rw [hnil] at he
        exact he rfl
      · intro c hc
        exact hacc c (List.mem_reverse.mp hc)
  | cons a s ih =>
    intro acc hacc w hw
    unfold wordsAux at hw
    by_cases ha : isWsChar a = true
    · rw [if_pos ha] at hw
      by_cases he : acc.isEmpty = true
      · rw [if_pos he] at hw
        exact ih [] (by simp) w hw
      · rw [if_neg he] at hw
        rcases List.mem_cons.mp hw with hw | hw
        · subst hw
          refine ⟨?_, ?_⟩
          · intro hnil
            rw [List.reverse_eq_nil_iff] at hnil
            rw [hnil] at he
            exact he rfl
          · intro c hc
            exact hacc c (List.mem_reverse.mp hc)
        · exact ih [] (by simp) w hw
    · rw [if_neg ha] at hw
      refine ih (a :: acc) ?_ w hw
      intro c hc
      rcases List.mem_cons.mp hc with rfl | hc
      · cases hb : isWsChar c with
        | true => exact absurd hb ha
        | false => rfl
      · exact hacc c hc

/-- Words produced by Python `str.split()` are non-empty and contain no
whitespace. -/
theorem pyWords_sound (s : List Char) :
    ∀ w ∈ pyWords s, w ≠ [] ∧ ∀ c ∈ w, isWsChar c = false :=
  wordsAux_sound s [] (by simp)

/-- Appending one word to a non-empty group extends its space-join by one
space and the word. -/
theorem joinSp_append_single :
    ∀ (cws : List (List Char)) (w : List Char), cws ≠ [] →
    joinSp (cws ++ [w]) = joinSp cws ++ ' ' :: w := by
  intro cws
  induction cws with
  | nil => intro w h; exact absurd rfl h
  | cons x tl ih =>
    intro w _
    cases tl with
    | nil => rfl
    | cons y tl2 =>
      rw [List.cons_append]
      show x ++ ' ' :: joinSp ((y :: tl2) ++ [w])
          = (x ++ ' ' :: joinSp (y :: tl2)) ++ ' ' :: w
      rw [ih w (by simp)]
      simp

/-- The space-join of a group headed by a non-empty word starts with that
word's first character. -/
theorem joinSp_cons_head (c : Char) (w0t : List Char) (tl : List (List Char)) :
    ∃ r, joinSp ((c :: w0t) :: tl) = c :: r := by
  cases tl with
  | nil => exact ⟨w0t, rfl⟩
  | cons y tl2 => exact ⟨w0t ++ ' ' :: joinSp (y :: tl2), rfl⟩

/-- The space-join of a non-empty group of non-empty words is non-empty. -/
theorem joinSp_ne_nil (cws : List (List Char)) (hne : cws ≠ [])
    (hws : ∀ w ∈ cws, w ≠ []) : joinSp cws ≠ [] := by
  cases cws with
  | nil => exact absurd rfl hne
  | cons w tl =>
    cases hw : w with
    | nil => exact absurd hw (hws w (List.mem_cons_self w tl))
    | cons c t =>
      subst hw
      obtain ⟨r, hr⟩ := joinSp_cons_head c t tl
      rw [hr]
      simp

/-- `str.strip()` is the identity on a string whose first and last
characters are not whitespace. -/
theorem pyStrip_eq_self (s : List Char)
    (h1 : ∃ c t, s = c :: t ∧ isWsChar c = false)
    (h2 : ∃ c t, s.reverse = c :: t ∧ isWsChar c = false) :
    pyStrip s = s := by
  obtain ⟨c, t, rfl, hc⟩ := h1
  obtain ⟨c2, t2, hrev, hc2⟩ := h2
  unfold pyStrip
  rw [List.dropWhile_cons, if_neg (by simp [hc]), hrev, List.dropWhile_cons,
    if_neg (by simp [hc2]), ← hrev, List.reverse_reverse]

/-- The test string built by `_split_message_smart` — the running chunk, a
space, and the next word — is already stripped when chunk and word are
whitespace-free. -/
theorem pyStrip_joinSp_word (cws : List (List Char)) (w : List Char)
    (hcne : cws ≠ [])
    (hcws : ∀ u ∈ cws, u ≠ [] ∧ ∀ c ∈ u, isWsChar c = false)
    (hw : w ≠ []) (hwc : ∀ c ∈ w, isWsChar c = false) :
    pyStrip (joinSp cws ++ ' ' :: w) = joinSp cws ++ ' ' :: w := by
  apply pyStrip_eq_self
  · obtain ⟨w0, tl, rfl⟩ : ∃ w0 tl, cws = w0 :: tl := by
      cases cws with
      | nil => exact absurd rfl hcne
      | cons w0 tl => exact ⟨w0, tl, rfl⟩
    obtain ⟨c, t, rfl⟩ : ∃ c t, w0 = c :: t := by
      cases hw0 : w0 with
      | nil => exact absurd hw0 (hcws w0 (List.mem_cons_self w0 tl)).1
      | cons c t => exact ⟨c, t, rfl⟩
    obtain ⟨r, hr⟩ := joinSp_cons_head c t tl
    refine ⟨c, r ++ ' ' :: w, ?_, ?_⟩
    · rw [hr, List.cons_append]
    · exact (hcws (c :: t) (List.mem_cons_self _ tl)).2 c
        (List.mem_cons_self c t)
  · obtain ⟨d, wr, hwr⟩ : ∃ d wr, w.reverse = d :: wr := by
      cases hrv : w.reverse with
      | nil => exact absurd (List.reverse_eq_nil_iff.mp hrv) hw
      | cons d wr => exact ⟨d, wr, rfl⟩
    refine ⟨d, wr ++ ' ' :: (joinSp cws).reverse, ?_, ?_⟩
    · rw [List.reverse_append, List.reverse_cons, hwr]
      simp
    · refine hwc d ?_
      rw [← List.mem_reverse, hwr]
      exact List.mem_cons_self d wr

/-- Invariant carried by every chunk group: the group is non-empty, its
words are non-empty and whitespace-free, and its space-join either fits in
`maxLen` or is a single over-long word. -/
def GroupOk (maxLen : Nat) (gs : List (List Char)) : Prop :=
  gs ≠ [] ∧ (∀ w ∈ gs, w ≠ [] ∧ ∀ c ∈ w, isWsChar c = false) ∧
  ((joinSp gs).length ≤ maxLen ∨ ∃ w, gs = [w] ∧ maxLen < w.length)

/-- One step of the word loop when the running chunk is a non-empty group:
the force-split branch is unreachable, and the test string is the join of
the extended group. -/
theorem splitLoop_cons_group (maxLen : Nat) (w : List Char)
    (ws : List (List Char)) (chunks : List (List Char))
    (cws : List (List Char)) (hcne : cws ≠ [])
    (hcws : ∀ u ∈ cws, u ≠ [] ∧ ∀ c ∈ u, isWsChar c = false)
    (hw : w ≠ []) (hwc : ∀ c ∈ w, isWsChar c = false) :
    splitLoop maxLen (w :: ws) chunks (joinSp cws) =
      if (joinSp (cws ++ [w])).length ≤ maxLen then
        splitLoop maxLen ws chunks (joinSp (cws ++ [w]))
      else
        splitLoop maxLen ws (chunks ++ [joinSp cws]) w := by
  have hnn : joinSp cws ≠ [] := joinSp_ne_nil cws hcne fun u hu => (hcws u hu).1
  have hie : (joinSp cws).isEmpty = false := by
    cases hjj : joinSp cws with
    | nil => exact absurd hjj hnn
    | cons a l => rfl
  rw [splitLoop]
  simp only [hie, Bool.false_eq_true, if_false]
  rw [pyStrip_joinSp_word cws w hcne hcws hw hwc,
    ← joinSp_append_single cws w hcne]

/-- The central loop invariant of `_split_message_smart`: starting from
chunk groups and a non-empty running group, the loop produces chunk groups
and a running group that partition the remaining words in order, all
satisfying `GroupOk`. -/
theorem splitLoop_groups (maxLen : Nat) :
    ∀ (ws : List (List Char)) (gss : List (List (List Char)))
      (cws : List (List Char)),
    (∀ w ∈ ws, w ≠ [] ∧ ∀ c ∈ w, isWsChar c = false) →
    (∀ gs ∈ gss, GroupOk maxLen gs) →
    GroupOk maxLen cws →
    ∃ (gss2 : List (List (List Char))) (cws2 : List (List Char)),
      splitLoop maxLen ws (gss.map joinSp) (joinSp cws)
        = (gss2.map joinSp, joinSp cws2) ∧
      gss2.flatten ++ cws2 = gss.flatten ++ cws ++ ws ∧
      (∀ gs ∈ gss2, GroupOk maxLen gs) ∧ GroupOk maxLen cws2 := by
  intro ws
  induction ws with
  | nil =>
    intro gss cws _ hgss hcws
    exact ⟨gss, cws, rfl, by simp, hgss, hcws⟩
  | cons w ws ih =>
    intro gss cws hws hgss hcws
    have hcne := hcws.1
    have hcwords := hcws.2.1
    have hw := hws w (List.mem_cons_self w ws)
    have hws2 : ∀ u ∈ ws, u ≠ [] ∧ ∀ c ∈ u, isWsChar c = false :=
      fun u hu => hws u (List.mem_cons_of_mem w hu)
    rw [splitLoop_cons_group maxLen w ws (gss.map joinSp) cws hcne hcwords
      hw.1 hw.2]
    by_cases hfit : (joinSp (cws ++ [w])).length ≤ maxLen
    · rw [if_pos hfit]
      have hcok : GroupOk maxLen (cws ++ [w]) := by
        refine ⟨by simp, ?_, Or.inl hfit⟩
        intro u hu
        rcases List.mem_append.mp hu with hu | hu
        · exact hcwords u hu
        · simp only [List.mem_singleton] at hu
          subst hu
          exact hw
      obtain ⟨gss2, cws2, heq, hjoin, hgok, hcok2⟩ :=
        ih gss (cws ++ [w]) hws2 hgss hcok
      refine ⟨gss2, cws2, heq, ?_, hgok, hcok2⟩
      rw [hjoin]
      simp
    · rw [if_neg hfit]
      have hmap : gss.map joinSp ++ [joinSp cws] = (gss ++ [cws]).map joinSp := by
        simp
      rw [hmap]
      have hwok : GroupOk maxLen [w] := by
        refine ⟨by simp, ?_, ?_⟩
        · intro u hu
          simp only [List.mem_singleton] at hu
          subst hu
          exact hw
        · rcases le_or_lt w.length maxLen with hle | hlt
          · exact Or.inl (by simpa [joinSp] using hle)
          · exact Or.inr ⟨w, rfl, hlt⟩
      have hgss2 : ∀ gs ∈ gss ++ [cws], GroupOk maxLen gs := by
        intro gs hgs
        rcases List.mem_append.mp hgs with hgs | hgs
        · exact hgss gs hgs
        · simp only [List.mem_singleton] at hgs
          subst hgs
          exact hcws
      obtain ⟨gss2, cws2, heq, hjoin, hgok, hcok2⟩ :=
        ih (gss ++ [cws]) [w] hws2 hgss2 hwok
      refine ⟨gss2, cws2, heq, ?_, hgok, hcok2⟩
      rw [hjoin]
      simp

/-- No chunk the word loop emits is empty: closed running chunks are
guarded non-empty and forced-split chunks end in the `"..."` marker. -/
theorem splitLoop_chunks_ne_nil (maxLen : Nat) :
    ∀ (ws : List (List Char)) (chunks : List (List Char)) (current : List Char),
    (∀ w ∈ ws, w ≠ []) → (∀ c ∈ chunks, c ≠ []) →
    ∀ c ∈ (splitLoop maxLen ws chunks current).1, c ≠ [] := by
  intro ws
  induction ws with
  | nil =>
    intro chunks current _ hch c hc
    exact hch c hc
  | cons w ws ih =>
    intro chunks current hws hch
    have hws2 : ∀ u ∈ ws, u ≠ [] := fun u hu => hws u (List.mem_cons_of_mem w hu)
    rw [splitLoop]
    by_cases he : current.isEmpty = true
    · simp only [he, if_true]
      by_cases h1 : w.length ≤ maxLen
      · rw [if_pos h1]
        exact ih chunks w hws2 hch
      · rw [if_neg h1, if_pos (by omega)]
        refine ih _ _ hws2 ?_
        intro c hc
        rcases List.mem_append.mp hc with hc | hc
        · exact hch c hc
        · simp only [List.mem_singleton] at hc
          subst hc
          simp [dots]
    · have he2 : current.isEmpty = false := by
        cases hb : current.isEmpty with
        | true => exact absurd hb he
        | false => rfl
      have hcne : current ≠ [] := by
        intro hnil
        rw [hnil] at he2
        cases he2
      simp only [he2, Bool.false_eq_true, if_false]
      by_cases h1 : (pyStrip (current ++ ' ' :: w)).length ≤ maxLen
      · rw [if_pos h1]
        exact ih chunks _ hws2 hch
      · rw [if_neg h1]
        refine ih _ _ hws2 ?_
        intro c hc
        rcases List.mem_append.mp hc with hc | hc
        · exact hch c hc
        · simp only [List.mem_singleton] at hc
          subst hc
          exact hcne

/-- `_split_message_smart` partitions the words of the input, in order,
into space-joined groups, when the first word fits (so the forced-split
branch, reachable only while the running chunk is empty, is not taken). -/
theorem splitMessageSmart_partition (text : List Char) (maxLen : Nat)
    (hlen : maxLen < text.length) (w0 : List Char) (rest : List (List Char))
    (hw : pyWords text = w0 :: rest) (hfit : w0.length ≤ maxLen) :
    ∃ gss : List (List (List Char)), gss ≠ [] ∧ gss.flatten = pyWords text ∧
      splitMessageSmart text maxLen = gss.map joinSp ∧
      ∀ gs ∈ gss, GroupOk maxLen gs := by
  have hsound := pyWords_sound text
  rw [hw] at hsound
  have hw0 := hsound w0 (List.mem_cons_self w0 rest)
  have hrest : ∀ u ∈ rest, u ≠ [] ∧ ∀ c ∈ u, isWsChar c = false :=
    fun u hu => hsound u (List.mem_cons_of_mem w0 hu)
  have hw0ok : GroupOk maxLen [w0] := by
    refine ⟨by simp, ?_, Or.inl (by simpa [joinSp] using hfit)⟩
    intro u hu
    simp only [List.mem_singleton] at hu
    subst hu
    exact hw0
  obtain ⟨gss2, cws2, heq, hjoin, hgok, hcok⟩ :=
    splitLoop_groups maxLen rest [] [w0] hrest (by simp) hw0ok
  unfold splitMessageSmart
  rw [if_neg (by omega), hw, splitLoop]
  simp only [List.isEmpty_nil, if_true]
  rw [if_pos hfit]
  rw [show splitLoop maxLen rest ([] : List (List Char)) w0
        = (gss2.map joinSp, joinSp cws2) from heq]
  have hcne : joinSp cws2 ≠ [] :=
    joinSp_ne_nil cws2 hcok.1 fun u hu => (hcok.2.1 u hu).1
  have hie : (joinSp cws2).isEmpty = false := by
    cases hjj : joinSp cws2 with
    | nil => exact absurd hjj hcne
    | cons a l => rfl
  simp only [hie, Bool.false_eq_true, if_false]
  have hch : (gss2.map joinSp ++ [joinSp cws2]).isEmpty = false := by simp
  simp only [hch, Bool.false_eq_true, if_false]
  refine ⟨gss2 ++ [cws2], by simp, ?_, ?_, ?_⟩
  · rw [List.flatten_append]
    simpa using hjoin
  · simp
  · intro gs hgs
    rcases List.mem_append.mp hgs with hgs | hgs
    · exact hgok gs hgs
    · simp only [List.mem_singleton] at hgs
      subst hgs
      exact hcok

/-- The final fallback of `_split_message_smart` never yields an empty
chunk list. -/
theorem ifEmpty_ne_nil (chunks : List (List Char)) (fallback : List Char) :
    (if chunks.isEmpty then [fallback] else chunks) ≠ [] := by
  by_cases h : chunks.isEmpty = true
  · rw [if_pos h]
    simp
  · rw [if_neg h]
    intro hnil
    rw [hnil] at h
    exact h rfl

/-- C3 counterexample: with limit 5 the splitter turns `"ab abcdefgh"` into
the chunks `"ab"` and `"abcdefgh"` — the second chunk is eight characters
long, exceeding the limit, and carries no forced-split marker (the
forced-split branch only runs while the accumulated chunk is empty, i.e.
for the first word). -/
theorem splitOverlongChunkCex :
    splitMessageSmart "ab abcdefgh".data 5 = ["ab".data, "abcdefgh".data] ∧
    5 < ("abcdefgh".data).length ∧
    containsSub dots "abcdefgh".data = false := by
  exact ⟨by decide, by decide, by decide⟩

/-- C3 amended: for every text and positive limit the splitter returns
`[text]` when the text fits; otherwise it returns at least one chunk, no
chunk is empty, and — whenever the first word fits, so no forced split
occurs — the chunks are exactly the space-joins of consecutive groups of
the input's words in their original order, each group either fitting in
the limit or consisting of a single over-long word emitted whole (an
over-long word is force-split into `word[:maxLen-3] + "..."` and a `"..."`
remainder only when it is met with an empty accumulated chunk, i.e. as the
first word; later over-long words become whole over-long chunks). -/
theorem splitMessageSmartAmended (text : List Char) (maxLen : Nat)
    (hpos : 1 ≤ maxLen) :
    (text.length ≤ maxLen → splitMessageSmart text maxLen = [text]) ∧
    splitMessageSmart text maxLen ≠ [] ∧
    (maxLen < text.length → ∀ c ∈ splitMessageSmart text maxLen, c ≠ []) ∧
    (maxLen < text.length → ∀ w0 rest, pyWords text = w0 :: rest →
      w0.length ≤ maxLen →
      ∃ gss : List (List (List Char)), gss ≠ [] ∧ gss.flatten = pyWords text ∧
        splitMessageSmart text maxLen = gss.map joinSp ∧
        ∀ gs ∈ gss, gs ≠ [] ∧
          ((joinSp gs).length ≤ maxLen ∨ ∃ w, gs = [w] ∧ maxLen < w.length)) := by
  refine ⟨?_, ?_, ?_, ?_⟩
  · intro h
    unfold splitMessageSmart
    rw [if_pos h]
  · unfold splitMessageSmart
    by_cases h1 : text.length ≤ maxLen
    · rw [if_pos h1]
      simp
    · rw [if_neg h1]
      exact ifEmpty_ne_nil _ _
  · intro hlt c hc
    have hwords : ∀ w ∈ pyWords text, w ≠ [] :=
      fun w hw => (pyWords_sound text w hw).1
    have hloop := splitLoop_chunks_ne_nil maxLen (pyWords text) [] []
      hwords (by simp)
    unfold splitMessageSmart at hc
    rw [if_neg (by omega)] at hc
    simp only [] at hc
    by_cases h2 : (splitLoop maxLen (pyWords text) [] []).2.isEmpty = true
    · simp only [h2, if_true] at hc
      by_cases h3 : (splitLoop maxLen (pyWords text) [] []).1.isEmpty = true
      · simp only [h3, if_true, List.mem_singleton] at hc
        subst hc
        intro hnil
        rcases List.take_eq_nil_iff.mp hnil with h | h
        · omega
        · rw [h] at hlt
          simp at hlt
      · simp only [h3, Bool.false_eq_true, if_false] at hc
        exact hloop c hc
    · have h2f : (splitLoop maxLen (pyWords text) [] []).2.isEmpty = false := by
        cases hb : (splitLoop maxLen (pyWords text) [] []).2.isEmpty with
        | true => exact absurd hb h2
        | false => rfl
      simp only [h2f, Bool.false_eq_true, if_false] at hc
      have hne : ((splitLoop maxLen (pyWords text) [] []).1 ++
          [(splitLoop maxLen (pyWords text) [] []).2]).isEmpty = false := by simp
      simp only [hne, Bool.false_eq_true, if_false] at hc
      rcases List.mem_append.mp hc with hc | hc
      · exact hloop c hc
      · simp only [List.mem_singleton] at hc
        subst hc
        intro hnil
        rw [hnil] at h2f
        cases h2f
  · intro hlt w0 rest hw hfit
    obtain ⟨gss, hne, hflat, heq, hok⟩ :=
      splitMessageSmart_partition text maxLen hlt w0 rest hw hfit
    exact ⟨gss, hne, hflat, heq, fun gs hgs => ⟨(hok gs hgs).1, (hok gs hgs).2.2⟩⟩

/-- Witness for `splitMessageSmartAmended` at `"hello world foo"` with
limit 11, split into `"hello world"` and `"foo"`. -/
theorem splitMessageSmartAmendedWitness :
    (1 : Nat) ≤ 11 ∧ 11 < ("hello world foo".data).length ∧
    pyWords "hello world foo".data
      = ["hello".data, "world".data, "foo".data] ∧
    ("hello".data).length ≤ 11 ∧
    ∃ gss : List (List (List Char)), gss ≠ [] ∧
      gss.flatten = pyWords "hello world foo".data ∧
      splitMessageSmart "hello world foo".data 11 = gss.map joinSp ∧
      ∀ gs ∈ gss, gs ≠ [] ∧
        ((joinSp gs).length ≤ 11 ∨ ∃ w, gs = [w] ∧ 11 < w.length) :=
  ⟨by decide, by decide, by decide, by decide,
   (splitMessageSmartAmended "hello world foo".data 11 (by decide)).2.2.2
     (by decide) "hello".data ["world".data, "foo".data] (by decide) (by decide)⟩

end Tfm
